import Mathlib

/-!
Verification of the portus control-plane core: the wire codec for the
UpdateField message, the `Measurement.get_field` lookup, the control API
`install_measurement`, and the dispatch loop `start` with its per-flow
registry.  Definitions are shallow embeddings of `src/lib.rs` and
`src/serialize/update_field.rs`; parts of the crate not present in the
excerpt (the generic serializer, the `lang` module's `Reg`/`Scope`, the
DSL compiler) are modelled from the specification and marked as such.
-/

set_option maxRecDepth 4096

/-- Little-endian byte packer for unsigned 32-bit integers
(`u32_to_u8s` in `serialize/mod.rs`).
Modelled from the spec: "Primitive packers: little-endian encoders for
unsigned 32 and 64-bit integers" (the packer source is not in the excerpt). -/
def u32_to_u8s (n : Nat) : List Nat :=
  [n % 256, n / 2 ^ 8 % 256, n / 2 ^ 16 % 256, n / 2 ^ 24 % 256]

/-- Little-endian byte packer for unsigned 64-bit integers
(`u64_to_u8s` in `serialize/mod.rs`).
Modelled from the spec: little-endian, 8 bytes. -/
def u64_to_u8s (n : Nat) : List Nat :=
  [n % 256, n / 2 ^ 8 % 256, n / 2 ^ 16 % 256, n / 2 ^ 24 % 256,
   n / 2 ^ 32 % 256, n / 2 ^ 40 % 256, n / 2 ^ 48 % 256, n / 2 ^ 56 % 256]

/-- Constant `HDR_LENGTH` from `serialize/mod.rs` (not in the excerpt).
Modelled from the spec: the header is `[tag:u8][reserved:u8][length:u16 LE]`
followed by `sock_id:u32 LE`, and the golden UpdateField vector has total
length 25 = HDR_LENGTH + 4 + 13, so HDR_LENGTH = 8 (4-byte header plus the
4-byte flow id). -/
def HDR_LENGTH : Nat := 8

/-- Embedding of `lang::Type`, the DSL register type tag (the `lang` module is not in
the excerpt).  Modelled from the spec: registers are typed; the test uses
`Type::Num(None)`. -/
inductive RType where
  | Num (v : Option Nat)
  | Boolean (v : Option Bool)
deriving Repr, DecidableEq

/-- Embedding of `lang::Reg`, a named storage cell of the DSL (the `lang` module is not
in the excerpt).  Modelled from the spec §3: variants Permanent(idx, type),
Implicit(idx, type), Temporary and Constant (compiler-internal). -/
inductive Reg where
  | Const (idx : Nat) (t : RType)
  | Perm (idx : Nat) (t : RType)
  | Implicit (idx : Nat) (t : RType)
  | Tmp (idx : Nat) (t : RType)
deriving Repr, DecidableEq

/-- Serialization of a `Reg` (its `IntoIterator` impl in `lang`, not in
the excerpt).  Modelled from the spec §4.1: "A `Reg` serializes as 5
bytes: 1 discriminant + 4-byte payload (index or constant)", and the
golden vector in §6 pins the discriminant of `Implicit` to 2
(`02 04 00 00 00` encodes `Implicit(idx=4)`).  The other discriminants
are not pinned by the spec; they are assigned distinct values here. -/
def regBytes : Reg → List Nat
  | .Const idx _ => 0 :: u32_to_u8s idx
  | .Perm idx _ => 1 :: u32_to_u8s idx
  | .Implicit idx _ => 2 :: u32_to_u8s idx
  | .Tmp idx _ => 3 :: u32_to_u8s idx

namespace UpdateField

/-- Constant `UPDATE_FIELD`, the type tag of the UpdateField message kind
(`serialize/update_field.rs`, line 6). -/
def UPDATE_FIELD : Nat := 3

/-- Embedding of `serialize::update_field::Msg` (`serialize/update_field.rs`):
sock id, field count (a `u8` on the wire side), and the `(Reg, u64)`
update entries. -/
structure Msg where
  sid : Nat
  num_fields : Nat
  fields : List (Reg × Nat)
deriving Repr, DecidableEq

/-- Embedding of `Msg::get_hdr` (`serialize/update_field.rs`, lines 18-24): the header
triple (type tag, declared total length `HDR_LENGTH + 4 + 13*num_fields`,
sock id). -/
def Msg.get_hdr (m : Msg) : Nat × Nat × Nat :=
  (UPDATE_FIELD, HDR_LENGTH + 4 + m.num_fields * 13, m.sid)

/-- Embedding of `Msg::get_u32s` (`serialize/update_field.rs`, lines 26-31): the u32
section of the body, the field count widened to a `u32`. -/
def Msg.get_u32s (m : Msg) : List Nat :=
  u32_to_u8s m.num_fields

/-- Embedding of `Msg::get_bytes` (`serialize/update_field.rs`, lines 33-43): for each
field, the 5-byte `Reg` encoding followed by the 8-byte little-endian
value. -/
def Msg.get_bytes (m : Msg) : List Nat :=
  m.fields.flatMap (fun f => regBytes f.1 ++ u64_to_u8s f.2)

/-- Embedding of `serialize::serialize` applied to an UpdateField `Msg`
(`serialize/mod.rs` is not in the excerpt).
Modelled from the spec: "Every message carries a 4-byte header: 1-byte
type tag, 1 reserved byte, 2-byte little-endian total length.  The body
begins with a 4-byte flow id, then a kind-specific payload" — the payload
being the message's u32 section followed by its byte section. -/
def serialize (m : Msg) : List Nat :=
  let hdr := m.get_hdr
  [hdr.1, 0, hdr.2.1 % 256, hdr.2.1 / 256 % 256]
    ++ u32_to_u8s hdr.2.2 ++ m.get_u32s ++ m.get_bytes

/-- Embedding of `RawMsg` (`serialize/mod.rs`, not in the excerpt).  Modelled from the
spec: a decoded frame is a header (tag, declared length, flow id) plus
the raw body bytes. -/
structure RawMsg where
  typ : Nat
  len : Nat
  sid : Nat
  body : List Nat
deriving Repr, DecidableEq

/-- Embedding of `Msg::from_raw_msg` (`serialize/update_field.rs`, lines 45-47): the
body is `unimplemented!()`, an unconditional panic; the embedding returns
`none` for a panic, so the decoder never produces a value. -/
def Msg.from_raw_msg (_msg : RawMsg) : Option Msg :=
  none

end UpdateField

/-- C2: serializing `Msg{sid:1, num_fields:1, fields:[(Implicit(4,Num),42)]}`
yields exactly the 25-byte golden buffer; its bytes 2-3 are the
little-endian total length 25, and the register is encoded as the 5 bytes
`02 04 00 00 00`. -/
theorem updateField_golden_vector :
    UpdateField.serialize
        ⟨1, 1, [(Reg.Implicit 4 (RType.Num none), 42)]⟩ =
      [3, 0, 25, 0, 1, 0, 0, 0, 1, 0, 0, 0,
       2, 4, 0, 0, 0, 42, 0, 0, 0, 0, 0, 0, 0] ∧
    ((UpdateField.serialize
        ⟨1, 1, [(Reg.Implicit 4 (RType.Num none), 42)]⟩)[2]? = some 25 ∧
     (UpdateField.serialize
        ⟨1, 1, [(Reg.Implicit 4 (RType.Num none), 42)]⟩)[3]? = some 0) ∧
    ((UpdateField.serialize
        ⟨1, 1, [(Reg.Implicit 4 (RType.Num none), 42)]⟩).drop 12).take 5 =
      [2, 4, 0, 0, 0] := by
  decide

/-- The claim "for every UpdateField message the buffer length equals the
header-declared length" fails when the redundant `num_fields` field
disagrees with `fields.len()`: with `num_fields = 1` and no field entries
the buffer has 12 bytes while the header declares 25. -/
theorem updateField_framing_cex :
    ¬ (UpdateField.serialize ⟨0, 1, []⟩).length =
        (UpdateField.Msg.get_hdr ⟨0, 1, []⟩).2.1 := by
  decide

/-- Each `(Reg, u64)` update entry serializes to exactly 13 bytes. -/
theorem length_update_entries (fs : List (Reg × Nat)) :
    (fs.flatMap (fun f => regBytes f.1 ++ u64_to_u8s f.2)).length =
      13 * fs.length := by
  induction fs with
  | nil => rfl
  | cons f t ih =>
      have hreg : (regBytes f.1).length = 5 := by
        cases f.1 <;> rfl
      have h8 : (u64_to_u8s f.2).length = 8 := rfl
      simp only [List.flatMap_cons, List.length_append, List.length_cons,
        hreg, h8, ih]
      omega

/-- C4 (amended): for every UpdateField message whose `num_fields` agrees
with the number of field entries and fits in a `u8`, the serialized buffer
length equals the header-declared length `HDR_LENGTH + 4 + 13*num_fields`,
and bytes 2-3 hold that length in little-endian. -/
theorem updateField_framing (m : UpdateField.Msg)
    (hn : m.num_fields = m.fields.length) (hb : m.num_fields ≤ 255) :
    (UpdateField.serialize m).length = m.get_hdr.2.1 ∧
    (UpdateField.serialize m)[2]? =
      some ((UpdateField.serialize m).length % 256) ∧
    (UpdateField.serialize m)[3]? =
      some ((UpdateField.serialize m).length / 256 % 256) ∧
    (UpdateField.serialize m).length % 256 +
        256 * ((UpdateField.serialize m).length / 256 % 256) =
      (UpdateField.serialize m).length := by
  have hlen : (UpdateField.serialize m).length = m.get_hdr.2.1 := by
    simp only [UpdateField.serialize, UpdateField.Msg.get_hdr,
      UpdateField.Msg.get_u32s, UpdateField.Msg.get_bytes,
      List.length_append, List.length_cons, List.length_nil,
      u32_to_u8s, length_update_entries, HDR_LENGTH, hn]
    omega
  have hsmall : m.get_hdr.2.1 < 65536 := by
    simp only [UpdateField.Msg.get_hdr, HDR_LENGTH]
    omega
  refine ⟨hlen, ?_, ?_, ?_⟩
  · rw [hlen]; rfl
  · rw [hlen]; rfl
  · rw [hlen]; omega

/-- Witness for `updateField_framing` at the golden message. -/
theorem updateField_framing_witness :
    (1 = ([(Reg.Implicit 4 (RType.Num none), 42)] : List (Reg × Nat)).length ∧
      1 ≤ 255) ∧
    (UpdateField.serialize ⟨1, 1, [(Reg.Implicit 4 (RType.Num none), 42)]⟩).length =
      (UpdateField.Msg.get_hdr ⟨1, 1, [(Reg.Implicit 4 (RType.Num none), 42)]⟩).2.1 :=
  ⟨⟨by decide, by decide⟩,
    (updateField_framing ⟨1, 1, [(Reg.Implicit 4 (RType.Num none), 42)]⟩
      (by decide) (by decide)).1⟩

/-- C10: the UpdateField decoder is unimplemented: `from_raw_msg`
unconditionally panics, so for every raw input it never produces a value. -/
theorem updateField_from_raw_msg_none (raw : UpdateField.RawMsg) :
    UpdateField.Msg.from_raw_msg raw = none :=
  rfl

/-- Embedding of `lang::Scope`, the identifier-to-register mapping produced by DSL
compilation (the `lang` module is not in the excerpt).
Modelled from the spec: "The `Scope` is a mapping from identifier to
`Reg`"; every reference resolves to at most one binding. -/
def Scope : Type := List (String × Reg)

/-- Embedding of `Scope::get`: look the name up in the mapping.
Modelled from the spec: map lookup, first (unique) binding wins. -/
def Scope.get (sc : Scope) (field : String) : Option Reg :=
  (sc.find? (fun p => p.1 == field)).map Prod.snd

/-- Embedding of `Measurement` (`lib.rs`, lines 79-81): an ordered sequence of 64-bit
fields reported by the datapath. -/
structure Measurement where
  fields : List Nat

/-- Embedding of `Measurement::get_field` (`lib.rs`, lines 84-95): resolve the name in
the scope; a permanent register with an in-range index yields the field at
that index, anything else yields `None`. -/
def Measurement.get_field (m : Measurement) (field : String) (sc : Scope) :
    Option Nat :=
  (sc.get field).bind fun r =>
    match r with
    | .Perm idx _ =>
        if h : idx < m.fields.length then some (m.fields.get ⟨idx, h⟩)
        else none
    | _ => none

/-- C3: `get_field` returns `some (m.fields[idx])` exactly when the scope
binds the name to a permanent register `Perm(idx, _)` with
`idx < m.fields.length`; it returns `none` whenever the name is unbound,
bound to a non-permanent register, or bound to a permanent register whose
index is out of range. -/
theorem get_field_spec (m : Measurement) (sc : Scope) (name : String) :
    (∀ v, m.get_field name sc = some v ↔
      ∃ idx t, sc.get name = some (Reg.Perm idx t) ∧
        idx < m.fields.length ∧ m.fields[idx]? = some v) ∧
    (m.get_field name sc = none ↔
      ¬ ∃ idx t, sc.get name = some (Reg.Perm idx t) ∧
        idx < m.fields.length) := by
  unfold Measurement.get_field
  cases hg : sc.get name with
  | none => constructor <;> simp [hg]
  | some r =>
      cases r with
      | Perm idx t =>
          constructor
          · intro v
            by_cases h : idx < m.fields.length <;>
              simp [hg, h, List.getElem?_eq_getElem]
          · by_cases h : idx < m.fields.length <;> simp [hg, h]
      | Const idx t => constructor <;> simp [hg]
      | Implicit idx t => constructor <;> simp [hg]
      | Tmp idx t => constructor <;> simp [hg]

/-- Embedding of `serialize::create::Msg`, the payload of a decoded `Create` message
(its module is not in the excerpt; the fields are exactly those read in
`start`, `lib.rs` lines 185-197, and the body layout of spec §4.1). -/
structure CreateMsg where
  sid : Nat
  init_cwnd : Nat
  mss : Nat
  src_ip : Nat
  src_port : Nat
  dst_ip : Nat
  dst_port : Nat
deriving Repr, DecidableEq

/-- Embedding of `serialize::measure::Msg`, the payload of a decoded `Measurement`
message (its module is not in the excerpt; the fields are those read in
`start`, `lib.rs` lines 200-213, and the body layout of spec §4.1). -/
structure MeasureMsg where
  sid : Nat
  num_fields : Nat
  fields : List Nat
deriving Repr, DecidableEq

/-- Embedding of `serialize::Msg`, the decoded-message union dispatched on by `start`
(`lib.rs` lines 165-222): `Cr`, `Ms`, the outbound-only `Pt` and `Fld`
(whose payloads `start` never inspects), and the remaining variants that
fall into the catch-all `_ => continue` arm. -/
inductive DMsg where
  | Cr (c : CreateMsg)
  | Ms (m : MeasureMsg)
  | Pt
  | Fld
  | Other
deriving Repr, DecidableEq

/-- Embedding of `DatapathInfo` (`lib.rs`, lines 131-140): per-flow immutable metadata
handed to the algorithm constructor. -/
structure DatapathInfo where
  sock_id : Nat
  init_cwnd : Nat
  mss : Nat
  src_ip : Nat
  src_port : Nat
  dst_ip : Nat
  dst_port : Nat
deriving Repr, DecidableEq

/-- The `DatapathInfo` that `start` derives from a `Create` message
(`lib.rs`, lines 188-196). -/
def infoOfCreate (c : CreateMsg) : DatapathInfo :=
  ⟨c.sid, c.init_cwnd, c.mss, c.src_ip, c.src_port, c.dst_ip, c.dst_port⟩

/-- An algorithm instance held in the flow registry.  The algorithm type
`U : CongAlg` is abstract in `start`; the embedding materialises an
instance as the `DatapathInfo` it was constructed from plus a construction
serial number, so that distinct constructions are distinguishable. -/
structure AlgInstance where
  info : DatapathInfo
  gen : Nat
deriving Repr, DecidableEq

/-- A hook invocation on an algorithm instance: construction (`U::create`),
`measurement(sock_id, m)`, or `close()`.  Each carries the serial number of
the instance it was invoked on. -/
inductive HookEvent where
  | created (gen : Nat) (info : DatapathInfo)
  | measurement (gen : Nat) (sock_id : Nat) (fields : List Nat)
  | close (gen : Nat)
deriving Repr, DecidableEq

/-- The state of the dispatch loop: the flow registry
(`HashMap<u32, U>`, embedded as an association list with unique keys kept
by construction), the trace of hook invocations so far, and the next
construction serial number. -/
structure LoopState where
  flows : List (Nat × AlgInstance)
  events : List HookEvent
  nextGen : Nat
deriving Repr, DecidableEq

/-- Embedding of `HashMap::get` and `contains_key` on the registry: the instance bound to
a sock id, if any. -/
def lookupFlow (sid : Nat) (l : List (Nat × AlgInstance)) :
    Option AlgInstance :=
  (l.find? (fun p => p.1 == sid)).map Prod.snd

/-- Embedding of `HashMap::remove` on the registry: drop every binding of the key. -/
def removeFlow (sid : Nat) (l : List (Nat × AlgInstance)) :
    List (Nat × AlgInstance) :=
  l.filter (fun p => ! (p.1 == sid))

/-- One iteration of the `match msg` dispatch in `start` (`lib.rs`, lines
165-222), given an already decoded message.  `none` models a `panic!`.
* `Cr c`: remove any existing binding (logged "re-creating", no hook),
  construct a new instance from the message's `DatapathInfo`, insert it.
* `Ms m`: if the sock id is bound, a zero-field report removes the
  instance and calls `close()`; otherwise `measurement(sid, fields)` is
  called; an unknown sock id is logged and discarded.
* `Pt` / `Fld`: `panic!` — these are outbound-only.
* Any other variant: `continue`. -/
def stepMsg (s : LoopState) : DMsg → Option LoopState
  | .Cr c =>
      let inst : AlgInstance := ⟨infoOfCreate c, s.nextGen⟩
      some ⟨(c.sid, inst) :: removeFlow c.sid s.flows,
            s.events ++ [.created s.nextGen (infoOfCreate c)],
            s.nextGen + 1⟩
  | .Ms m =>
      match lookupFlow m.sid s.flows with
      | some inst =>
          if m.num_fields = 0 then
            some ⟨removeFlow m.sid s.flows, s.events ++ [.close inst.gen],
                  s.nextGen⟩
          else
            some ⟨s.flows,
                  s.events ++ [.measurement inst.gen m.sid m.fields],
                  s.nextGen⟩
      | none => some s
  | .Pt => none
  | .Fld => none
  | .Other => some s

/-- One iteration of the `for m in backend.listen(...)` loop body
(`lib.rs`, lines 163-223) on the decode result of one inbound frame:
`if let Ok(msg) = Msg::from_buf(..)` silently skips frames that fail to
decode. -/
def stepFrame (s : LoopState) : Except String DMsg → Option LoopState
  | .error _ => some s
  | .ok msg => stepMsg s msg

/-- The registry state `start` begins with: empty `HashMap` (`lib.rs`,
line 161), no hooks invoked yet. -/
def initState : LoopState := ⟨[], [], 0⟩

/-- Running the dispatch loop over a finite sequence of inbound decode
results; `none` means some frame made the loop panic. -/
def runLoop (frames : List (Except String DMsg)) : Option LoopState :=
  frames.foldl (fun acc f => acc.bind (fun s => stepFrame s f)) (some initState)

/-- C7: the dispatch loop panics on an inbound `Pattern` or `InstallFold`
message, for every registry state (`lib.rs`, lines 215-220); it never
processes such a frame and continues. -/
theorem direction_violation_panics (s : LoopState) :
    stepMsg s DMsg.Pt = none ∧ stepMsg s DMsg.Fld = none :=
  ⟨rfl, rfl⟩

/-- C9: a frame that fails to decode is skipped: the loop state (registry
and hook trace) is unchanged and the loop does not terminate
(`lib.rs`, line 164: `if let Ok(msg) = Msg::from_buf(..)`). -/
theorem decode_failure_skipped (s : LoopState) (e : String) :
    stepFrame s (Except.error e) = some s :=
  rfl

/-- C5: dispatching a `Measurement` for a registered sock id
(`lib.rs`, lines 200-214): a zero-field report removes the instance and
invokes its `close` hook exactly once; a non-empty report invokes the
instance's `measurement` hook with the sock id and the report's fields
and leaves the registry unchanged. -/
theorem measurement_dispatch (s : LoopState) (m : MeasureMsg)
    (inst : AlgInstance) (hl : lookupFlow m.sid s.flows = some inst) :
    (m.num_fields = 0 →
      stepMsg s (DMsg.Ms m) =
        some ⟨removeFlow m.sid s.flows, s.events ++ [HookEvent.close inst.gen],
              s.nextGen⟩) ∧
    (m.num_fields ≠ 0 →
      stepMsg s (DMsg.Ms m) =
        some ⟨s.flows,
              s.events ++ [HookEvent.measurement inst.gen m.sid m.fields],
              s.nextGen⟩) := by
  constructor <;> intro h <;> simp [stepMsg, hl, h]

/-- Sample flow metadata used by concrete witnesses. -/
def sampleInfo : DatapathInfo := ⟨7, 10, 1448, 1, 2, 3, 4⟩

/-- A loop state with one registered flow, used by concrete witnesses. -/
def sampleState : LoopState := ⟨[(7, ⟨sampleInfo, 0⟩)], [], 1⟩

/-- Witness for `measurement_dispatch`: in a registry holding flow 7, a
zero-field report closes and removes it, and a two-field report delivers
`[100, 200]` to its measurement hook. -/
theorem measurement_dispatch_witness :
    lookupFlow 7 sampleState.flows = some ⟨sampleInfo, 0⟩ ∧
    stepMsg sampleState (DMsg.Ms ⟨7, 0, []⟩) =
      some ⟨removeFlow 7 sampleState.flows,
            sampleState.events ++ [HookEvent.close 0], sampleState.nextGen⟩ ∧
    stepMsg sampleState (DMsg.Ms ⟨7, 2, [100, 200]⟩) =
      some ⟨sampleState.flows,
            sampleState.events ++ [HookEvent.measurement 0 7 [100, 200]],
            sampleState.nextGen⟩ :=
  ⟨rfl,
   (measurement_dispatch sampleState ⟨7, 0, []⟩ ⟨sampleInfo, 0⟩ rfl).1 rfl,
   (measurement_dispatch sampleState ⟨7, 2, [100, 200]⟩ ⟨sampleInfo, 0⟩ rfl).2
     (by decide)⟩

/-- After removing a key, no binding for it remains. -/
theorem filter_removeFlow (k : Nat) (l : List (Nat × AlgInstance)) :
    (removeFlow k l).filter (fun p => p.1 == k) = [] := by
  simp [removeFlow, List.filter_filter]

/-- C6: a `Create` for a sock id already in the registry
(`lib.rs`, lines 166-199): the prior instance is removed without a `close`
hook, a new instance is constructed from the message's `DatapathInfo` and
inserted, and afterwards the registry maps that sock id only to the new
instance. -/
theorem create_replaces (s : LoopState) (c : CreateMsg) (old : AlgInstance)
    (hl : lookupFlow c.sid s.flows = some old) :
    stepMsg s (DMsg.Cr c) =
      some ⟨(c.sid, ⟨infoOfCreate c, s.nextGen⟩) :: removeFlow c.sid s.flows,
            s.events ++ [HookEvent.created s.nextGen (infoOfCreate c)],
            s.nextGen + 1⟩ ∧
    lookupFlow c.sid
        ((c.sid, ⟨infoOfCreate c, s.nextGen⟩) :: removeFlow c.sid s.flows) =
      some ⟨infoOfCreate c, s.nextGen⟩ ∧
    (((c.sid, (⟨infoOfCreate c, s.nextGen⟩ : AlgInstance)) ::
          removeFlow c.sid s.flows).filter (fun p => p.1 == c.sid)).length
      = 1 := by
  refine ⟨rfl, ?_, ?_⟩
  · simp [lookupFlow, List.find?_cons]
  · simp [List.filter_cons, filter_removeFlow]

/-- Witness for `create_replaces`: re-creating flow 7 with a different
initial window replaces the old instance without a close hook. -/
theorem create_replaces_witness :
    lookupFlow 7 sampleState.flows = some ⟨sampleInfo, 0⟩ ∧
    stepMsg sampleState (DMsg.Cr ⟨7, 20, 1448, 1, 2, 3, 4⟩) =
      some ⟨(7, ⟨infoOfCreate ⟨7, 20, 1448, 1, 2, 3, 4⟩, sampleState.nextGen⟩) ::
              removeFlow 7 sampleState.flows,
            sampleState.events ++
              [HookEvent.created sampleState.nextGen
                (infoOfCreate ⟨7, 20, 1448, 1, 2, 3, 4⟩)],
            sampleState.nextGen + 1⟩ :=
  ⟨rfl,
   (create_replaces sampleState ⟨7, 20, 1448, 1, 2, 3, 4⟩ ⟨sampleInfo, 0⟩
      rfl).1⟩

/-- Embedding of `Error` (`lib.rs`, lines 30-37): the unified textual error carrier. -/
structure Error where
  msg : String
deriving Repr, DecidableEq

/-- A register-machine instruction (the `lang` module is not in the
excerpt).  Modelled from the spec: "fixed-width instructions for a small
register machine", "a single instruction is 13 bytes" (opcode plus
operand registers); the exact field layout is not pinned by the spec. -/
structure Instr where
  opcode : Nat
  dst : Nat
  left : Nat
  right : Nat
deriving Repr, DecidableEq

/-- Serialization of one instruction: 13 bytes.
Modelled from the spec: opcode byte plus three 4-byte operands. -/
def instrBytes (i : Instr) : List Nat :=
  i.opcode % 256 :: (u32_to_u8s i.dst ++ u32_to_u8s i.left ++ u32_to_u8s i.right)

/-- Constant `INSTALL_FOLD`, the type tag of the InstallFold message kind.
Modelled from the spec §4.1 table: tag 2. -/
def INSTALL_FOLD : Nat := 2

/-- Embedding of `serialize::install_fold::Msg` (its module is not in the excerpt).
Modelled from the spec §4.1: body after the flow id is
`num_instrs:u32, instrs: instruction[num_instrs]`; the fields are those
constructed in `install_measurement` (`lib.rs`, lines 67-71). -/
structure InstallFoldMsg where
  sid : Nat
  num_instrs : Nat
  instrs : List Instr
deriving Repr, DecidableEq

/-- Embedding of `serialize::serialize` applied to an InstallFold message.
Modelled from the spec: 4-byte header (tag 2, reserved 0, total length
LE), flow id, instruction count, then the 13-byte instructions. -/
def serializeInstallFold (m : InstallFoldMsg) : List Nat :=
  let len := HDR_LENGTH + 4 + m.num_instrs * 13
  [INSTALL_FOLD, 0, len % 256, len / 256 % 256]
    ++ u32_to_u8s m.sid ++ u32_to_u8s m.num_instrs
    ++ m.instrs.flatMap instrBytes

/-- Embedding of `Datapath::install_measurement` (`lib.rs`, lines 65-76), with the
transport embedded as the list of frames sent so far: compile the source
(`lang::compile` is not in the excerpt, so the compiler is a parameter),
and on success serialize an `InstallFold` message with
`num_instrs = bin.0.len()`, send it, and return the scope; on compile
failure return the error with nothing sent. -/
def install_measurement
    (compile : List Nat → Except Error (List Instr × Scope))
    (sock_id : Nat) (src : List Nat) (sent : List (List Nat)) :
    Except Error Scope × List (List Nat) :=
  match compile src with
  | .error e => (.error e, sent)
  | .ok (bin, sc) =>
      let msg : InstallFoldMsg := ⟨sock_id, bin.length, bin⟩
      (.ok sc, sent ++ [serializeInstallFold msg])

/-- C8: `install_measurement` compiles first; on compile failure it
returns the error and sends no bytes; on success it sends exactly one
`InstallFold` frame whose `num_instrs` equals the compiled instruction
count and returns the compiled scope. -/
theorem install_measurement_spec
    (compile : List Nat → Except Error (List Instr × Scope))
    (sock_id : Nat) (src : List Nat) (sent : List (List Nat)) :
    (∀ e, compile src = .error e →
      install_measurement compile sock_id src sent = (.error e, sent)) ∧
    (∀ bin sc, compile src = .ok (bin, sc) →
      install_measurement compile sock_id src sent =
        (.ok sc, sent ++ [serializeInstallFold ⟨sock_id, bin.length, bin⟩])) := by
  constructor
  · intro e he
    simp [install_measurement, he]
  · intro bin sc hc
    simp [install_measurement, hc]

/-- A one-instruction compiler output used by the witness. -/
def sampleCompiled : List Instr × Scope :=
  ([⟨1, 2, 3, 4⟩], [("acked", Reg.Perm 0 (RType.Num none))])

/-- Witness for `install_measurement_spec`: a failing compiler sends
nothing and surfaces its error; a succeeding one-instruction compiler
sends exactly one frame and returns its scope. -/
theorem install_measurement_witness :
    ((fun _ : List Nat => (Except.error ⟨"parse"⟩ :
        Except Error (List Instr × Scope))) [9] = Except.error ⟨"parse"⟩ ∧
      install_measurement (fun _ => Except.error ⟨"parse"⟩) 7 [9] [] =
        (Except.error ⟨"parse"⟩, [])) ∧
    ((fun _ : List Nat => (Except.ok sampleCompiled :
        Except Error (List Instr × Scope))) [9] = Except.ok sampleCompiled ∧
      install_measurement (fun _ => Except.ok sampleCompiled) 7 [9] [] =
        (Except.ok sampleCompiled.2,
         [] ++ [serializeInstallFold ⟨7, sampleCompiled.1.length,
                  sampleCompiled.1⟩])) :=
  ⟨⟨rfl,
    (install_measurement_spec (fun _ => Except.error ⟨"parse"⟩) 7 [9] []).1
      ⟨"parse"⟩ rfl⟩,
   ⟨rfl,
    (install_measurement_spec (fun _ => Except.ok sampleCompiled) 7 [9] []).2
      sampleCompiled.1 sampleCompiled.2 rfl⟩⟩

/-- Whether a decode result is a successfully decoded `Create` for the
given sock id. -/
def isCreateFor (sid : Nat) : Except String DMsg → Bool
  | .ok (.Cr c) => c.sid == sid
  | _ => false

/-- Whether a decode result is a successfully decoded zero-field
`Measurement` for the given sock id. -/
def isZeroMeasFor (sid : Nat) : Except String DMsg → Bool
  | .ok (.Ms m) => m.sid == sid && m.num_fields == 0
  | _ => false

/-- The spec's registry characterization: some `Create` for the sock id
has been processed with no subsequent zero-field `Measurement` for it. -/
def registryChar (frames : List (Except String DMsg)) (sid : Nat) : Prop :=
  ∃ i, i < frames.length ∧ frames[i]?.any (isCreateFor sid) = true ∧
    ∀ j, j < frames.length → i < j →
      frames[j]?.any (isZeroMeasFor sid) = false

/-- Left-fold form of the registry characterization: the last event
relevant to the sock id is a `Create`. -/
def registryFold (frames : List (Except String DMsg)) (sid : Nat) : Bool :=
  frames.foldl
    (fun b f =>
      if isCreateFor sid f then true
      else if isZeroMeasFor sid f then false
      else b)
    false

/-- Appending one frame to a run of the loop. -/
theorem runLoop_append_singleton (fs : List (Except String DMsg))
    (f : Except String DMsg) :
    runLoop (fs ++ [f]) = (runLoop fs).bind (fun s => stepFrame s f) := by
  simp [runLoop, List.foldl_append]

/-- Appending one frame to the fold characterization. -/
theorem registryFold_append_singleton (fs : List (Except String DMsg))
    (f : Except String DMsg) (sid : Nat) :
    registryFold (fs ++ [f]) sid =
      (if isCreateFor sid f then true
       else if isZeroMeasFor sid f then false
       else registryFold fs sid) := by
  simp [registryFold, List.foldl_append]

/-- Looking up one key after removing another. -/
theorem lookupFlow_removeFlow (sid k : Nat) (l : List (Nat × AlgInstance)) :
    lookupFlow sid (removeFlow k l) =
      if sid = k then none else lookupFlow sid l := by
  unfold lookupFlow removeFlow
  rw [List.find?_filter]
  by_cases hsk : sid = k
  · subst hsk
    rw [if_pos rfl]
    have h : List.find?
        (fun a : Nat × AlgInstance =>
          decide ((! (a.1 == sid)) = true ∧ (a.1 == sid) = true)) l = none := by
      rw [List.find?_eq_none]
      intro a _
      simp
    rw [h]
    rfl
  · rw [if_neg hsk]
    have h : (fun a : Nat × AlgInstance =>
        decide ((! (a.1 == k)) = true ∧ (a.1 == sid) = true)) =
        fun a : Nat × AlgInstance => a.1 == sid := by
      funext a
      by_cases h2 : a.1 = sid
      · simp [h2]
        omega
      · simp [h2]
    rw [h]


/-- Looking a key up in a registry with a new binding at the front. -/
theorem lookupFlow_cons (sid k : Nat) (v : AlgInstance)
    (t : List (Nat × AlgInstance)) :
    lookupFlow sid ((k, v) :: t) =
      if k = sid then some v else lookupFlow sid t := by
  by_cases h : k = sid <;> simp [lookupFlow, List.find?_cons, h]

/-- The registry's key set after any quiescent run equals the left-fold
characterization: a sock id is bound iff its last relevant event was a
`Create`. -/
theorem loop_registryFold (fs : List (Except String DMsg)) :
    ∀ s, runLoop fs = some s → ∀ sid,
      (lookupFlow sid s.flows).isSome = registryFold fs sid := by
  induction fs using List.reverseRecOn with
  | nil =>
      intro s hs sid
      simp only [runLoop, List.foldl_nil, Option.some.injEq] at hs
      subst hs
      simp [initState, lookupFlow, registryFold]
  | append_singleton l f ih =>
      intro s hs sid
      rw [runLoop_append_singleton, Option.bind_eq_some] at hs
      obtain ⟨s0, hs0, hstep⟩ := hs
      have ih0 := ih s0 hs0
      rw [registryFold_append_singleton]
      match f with
      | .error e =>
          have he : s = s0 := by
            simpa [stepFrame] using hstep.symm
          subst he
          simpa [isCreateFor, isZeroMeasFor] using ih0 sid
      | .ok (.Other) =>
          have he : s = s0 := by
            simpa [stepFrame, stepMsg] using hstep.symm
          subst he
          simpa [isCreateFor, isZeroMeasFor] using ih0 sid
      | .ok (.Pt) =>
          simp [stepFrame, stepMsg] at hstep
      | .ok (.Fld) =>
          simp [stepFrame, stepMsg] at hstep
      | .ok (.Cr c) =>
          have he : s = ⟨(c.sid, ⟨infoOfCreate c, s0.nextGen⟩) ::
              removeFlow c.sid s0.flows,
              s0.events ++ [HookEvent.created s0.nextGen (infoOfCreate c)],
              s0.nextGen + 1⟩ := by
            simpa [stepFrame, stepMsg] using hstep.symm
          subst he
          by_cases hcs : c.sid = sid
          · simp [lookupFlow_cons, hcs, isCreateFor]
          · rw [show (⟨(c.sid, ⟨infoOfCreate c, s0.nextGen⟩) ::
                removeFlow c.sid s0.flows, _, _⟩ : LoopState).flows =
                (c.sid, ⟨infoOfCreate c, s0.nextGen⟩) ::
                  removeFlow c.sid s0.flows from rfl,
              lookupFlow_cons, if_neg hcs, lookupFlow_removeFlow,
              if_neg (fun hh => hcs hh.symm)]
            simpa [isCreateFor, isZeroMeasFor,
              show (c.sid == sid) = false by simpa using hcs] using ih0 sid
      | .ok (.Ms m) =>
          cases hl : lookupFlow m.sid s0.flows with
          | none =>
              have he : s = s0 := by
                simpa [stepFrame, stepMsg, hl] using hstep.symm
              subst he
              by_cases hms : m.sid = sid
              · subst hms
                by_cases hnf : m.num_fields = 0
                · simp [isCreateFor, isZeroMeasFor, hnf, hl]
                · simpa [isCreateFor, isZeroMeasFor, hnf] using ih0 m.sid
              · simpa [isCreateFor, isZeroMeasFor,
                  show (m.sid == sid) = false by simpa using hms]
                  using ih0 sid
          | some inst =>
              by_cases hnf : m.num_fields = 0
              · have he : s = ⟨removeFlow m.sid s0.flows,
                    s0.events ++ [HookEvent.close inst.gen], s0.nextGen⟩ := by
                  simpa [stepFrame, stepMsg, hl, hnf] using hstep.symm
                subst he
                rw [show (⟨removeFlow m.sid s0.flows, _, _⟩ :
                      LoopState).flows = removeFlow m.sid s0.flows from rfl,
                  lookupFlow_removeFlow]
                by_cases hms : m.sid = sid
                · subst hms
                  simp [isCreateFor, isZeroMeasFor, hnf]
                · rw [if_neg (fun hh => hms hh.symm)]
                  simpa [isCreateFor, isZeroMeasFor, hnf,
                    show (m.sid == sid) = false by simpa using hms]
                    using ih0 sid
              · have he : s = ⟨s0.flows,
                    s0.events ++
                      [HookEvent.measurement inst.gen m.sid m.fields],
                    s0.nextGen⟩ := by
                  simpa [stepFrame, stepMsg, hl, hnf] using hstep.symm
                subst he
                simpa [isCreateFor, isZeroMeasFor, hnf] using ih0 sid

/-- The spec's existential registry characterization agrees with its
left-fold form. -/
theorem registryChar_iff_fold (fs : List (Except String DMsg)) (sid : Nat) :
    registryChar fs sid ↔ registryFold fs sid = true := by
  induction fs using List.reverseRecOn with
  | nil =>
      simp [registryChar, registryFold]
  | append_singleton l f ih =>
      rw [registryFold_append_singleton]
      constructor
      · rintro ⟨i, hi, hc, hall⟩
        have hi' : i < l.length + 1 := by simpa using hi
        rcases Nat.lt_succ_iff_lt_or_eq.mp hi' with hlt | heq
        · have hcl : l[i]?.any (isCreateFor sid) = true := by
            rwa [List.getElem?_append, if_pos hlt] at hc
          have hzf : isZeroMeasFor sid f = false := by
            have hz := hall l.length (by simp) hlt
            rwa [List.getElem?_concat_length, Option.any_some] at hz
          have hfold : registryFold l sid = true := by
            refine ih.mp ⟨i, hlt, hcl, ?_⟩
            intro j hj hij
            have hz := hall j (by simp; omega) hij
            rwa [List.getElem?_append, if_pos hj] at hz
          cases hcf : isCreateFor sid f
          · simp [hcf, hzf, hfold]
          · simp [hcf]
        · subst heq
          rw [List.getElem?_concat_length, Option.any_some] at hc
          simp [hc]
      · intro h
        cases hcf : isCreateFor sid f
        · rw [hcf, if_neg (by simp)] at h
          cases hzf : isZeroMeasFor sid f
          · rw [hzf, if_neg (by simp)] at h
            obtain ⟨i, hlt, hcl, hall⟩ := ih.mpr h
            refine ⟨i, by simp; omega, ?_, ?_⟩
            · rw [List.getElem?_append, if_pos hlt]
              exact hcl
            · intro j hj hij
              have hj' : j < l.length + 1 := by simpa using hj
              rcases Nat.lt_succ_iff_lt_or_eq.mp hj' with hjl | hje
              · rw [List.getElem?_append, if_pos hjl]
                exact hall j hjl hij
              · subst hje
                rw [List.getElem?_concat_length, Option.any_some]
                exact hzf
          · rw [hzf, if_pos rfl] at h
            exact absurd h (by simp)
        · refine ⟨l.length, by simp, ?_, ?_⟩
          · rw [List.getElem?_concat_length, Option.any_some]
            exact hcf
          · intro j hj hij
            have : False := by
              simp at hj
              omega
            exact this.elim

/-- C1: at any quiescent instant of the dispatch loop, the registry binds
exactly the sock ids for which a `Create` has been processed with no
subsequent zero-field `Measurement` for that sock id; and processing a
(possibly duplicate) `Create` leaves the sock id bound to the newly
constructed instance. -/
theorem registry_exact (frames : List (Except String DMsg)) (s : LoopState)
    (h : runLoop frames = some s) (sid : Nat) :
    ((lookupFlow sid s.flows).isSome = true ↔ registryChar frames sid) ∧
    (∀ c s', stepMsg s (DMsg.Cr c) = some s' →
      lookupFlow c.sid s'.flows = some ⟨infoOfCreate c, s.nextGen⟩) := by
  constructor
  · rw [loop_registryFold frames s h sid]
    exact (registryChar_iff_fold frames sid).symm
  · intro c s' hstep
    have he : s' = ⟨(c.sid, ⟨infoOfCreate c, s.nextGen⟩) ::
        removeFlow c.sid s.flows,
        s.events ++ [HookEvent.created s.nextGen (infoOfCreate c)],
        s.nextGen + 1⟩ := by
      simpa [stepMsg] using hstep.symm
    subst he
    simp [lookupFlow_cons]

/-- A one-`Create` inbound trace used by the registry witness. -/
def sampleRun : List (Except String DMsg) :=
  [Except.ok (DMsg.Cr ⟨7, 10, 1448, 1, 2, 3, 4⟩)]

/-- The loop state reached by `sampleRun`. -/
def sampleRunState : LoopState :=
  ⟨[(7, ⟨infoOfCreate ⟨7, 10, 1448, 1, 2, 3, 4⟩, 0⟩)],
   [HookEvent.created 0 (infoOfCreate ⟨7, 10, 1448, 1, 2, 3, 4⟩)], 1⟩

/-- Witness for `registry_exact`: after processing a single `Create` for
sock id 7, the registry's membership for 7 matches the characterization. -/
theorem registry_exact_witness :
    runLoop sampleRun = some sampleRunState ∧
    ((lookupFlow 7 sampleRunState.flows).isSome = true ↔
      registryChar sampleRun 7) :=
  ⟨by decide, (registry_exact sampleRun sampleRunState (by decide) 7).1⟩
